import Mathlib

/-!
Shallow embedding of the gesture-matching engine of the Bolo repository.

The engine lives in `src/pages/Dataset.jsx` (capture side),
`src/pages/Detection.jsx` (matching side) and `src/pages/VectorStore.js`
(similarity store).  JavaScript numbers are embedded as exact rationals
(`ℚ`) throughout the geometry pipeline; cosine similarity needs a square
root and is therefore valued in `ℝ`.  Each definition below is translated
from the named source function; comments record the file and any
deliberate modelling choice (e.g. where JavaScript would produce `NaN`).
-/

namespace Bolo

/-- One landmark `{x, y, z}` as produced by the hand-pose library. -/
structure Keypoint where
  x : ℚ
  y : ℚ
  z : ℚ
deriving DecidableEq, Repr

/-- `TARGET_FRAME_COUNT = 7` (Dataset.jsx / Detection.jsx). -/
def TARGET_FRAME_COUNT : ℕ := 7

/-- `VECTOR_LENGTH = TARGET_FRAME_COUNT * 21 * 3 = 441`. -/
def VECTOR_LENGTH : ℕ := TARGET_FRAME_COUNT * 21 * 3

/-- `ZERO_KEYPOINT = { x: 0, y: 0, z: 0 }`. -/
def ZERO_KEYPOINT : Keypoint := ⟨0, 0, 0⟩

/-- `TARGET_DURATION_MS = 3000` (Dataset.jsx). -/
def TARGET_DURATION_MS : ℚ := 3000

/-- `BASE_FPS = 24` (Dataset.jsx). -/
def BASE_FPS : ℚ := 24

/-- `BASE_SAMPLE_RATE = 10` (Dataset.jsx). -/
def BASE_SAMPLE_RATE : ℤ := 10

/-- `SIMILARITY_THRESHOLD = 0.70` (Detection.jsx); cast to `ℝ` where it is
compared with a similarity score. -/
def SIMILARITY_THRESHOLD : ℚ := 70 / 100

/-- ECMA `Math.round`: round to the nearest integer, ties toward `+∞`,
i.e. `⌊q + 1/2⌋`. -/
def jsRound {α : Type} [LinearOrderedField α] [FloorRing α] (q : α) : ℤ :=
  ⌊q + 1 / 2⌋

/-- ECMA `parseFloat(q.toFixed(6))` on an exact rational: the multiple of
`10⁻⁶` nearest to `q`, ties picking the larger value (ECMA-262 `toFixed`
chooses the larger candidate integer when two are equally close). -/
def toFixed6 (q : ℚ) : ℚ :=
  (⌊q * 1000000 + 1 / 2⌋ : ℚ) / 1000000

/-- Dataset.jsx `normalizeKeypoints` (lines 27–41): a frame that does not
have exactly 21 landmarks, or whose landmarks are all zero, is returned
unchanged; otherwise the wrist (landmark 0) is subtracted componentwise
from every landmark. -/
def normalizeKeypointsDataset (keypoints : List Keypoint) : List Keypoint :=
  if keypoints.length ≠ 21 ∨ ∀ kp ∈ keypoints, kp.x = 0 ∧ kp.y = 0 ∧ kp.z = 0 then
    keypoints
  else
    let wrist := keypoints.headD ZERO_KEYPOINT
    keypoints.map fun kp => ⟨kp.x - wrist.x, kp.y - wrist.y, kp.z - wrist.z⟩

/-- Detection.jsx `normalizeKeypoints` (lines 598–608): returns `null` for a
frame without exactly 21 landmarks, otherwise subtracts the wrist
(landmark 0) componentwise.  `keypoints[0]` is only read when the length is
21, so `headD` is faithful. -/
def normalizeKeypointsDetection (keypoints : List Keypoint) : Option (List Keypoint) :=
  if keypoints.length ≠ 21 then
    none
  else
    let wrist := keypoints.headD ZERO_KEYPOINT
    some (keypoints.map fun kp => ⟨kp.x - wrist.x, kp.y - wrist.y, kp.z - wrist.z⟩)

/-- Detection.jsx `flattenKeypoints` (lines 611–619): concatenate each
frame's `(x, y, z)` triples in landmark order, frame by frame.  No rounding
is applied in the Detection copy. -/
def flattenKeypointsDetection (normalizedFrames : List (List Keypoint)) : List ℚ :=
  normalizedFrames.flatMap fun frame => frame.flatMap fun kp => [kp.x, kp.y, kp.z]

/-- Dataset.jsx `flattenKeypoints` (lines 43–53): same concatenation, then
every component is rounded with `parseFloat(v.toFixed(6))`. -/
def flattenKeypointsDataset (normalizedFrames : List (List Keypoint)) : List ℚ :=
  (normalizedFrames.flatMap fun frame => frame.flatMap fun kp => [kp.x, kp.y, kp.z]).map toFixed6

/-- A frame of 21 zero keypoints (`new Array(21).fill(ZERO_KEYPOINT)`). -/
def zeroKeypointFrame : List Keypoint := List.replicate 21 ZERO_KEYPOINT

/-- Detection.jsx `processSequenceToVector` (lines 622–657): truncate the
buffer to the first `TARGET_FRAME_COUNT` frames, right-pad with zero
frames, normalize each frame (all-zero frames pass through, the rest via
`normalizeKeypoints`, dropping `null` results), flatten, and report a
length mismatch as `null`. -/
def processSequenceToVector (rawFrames : List (List Keypoint)) : Option (List ℚ) :=
  let framesToProcess := rawFrames.take TARGET_FRAME_COUNT
  let padded := framesToProcess ++
    List.replicate (TARGET_FRAME_COUNT - framesToProcess.length) zeroKeypointFrame
  let normalizedFrames := (padded.map fun frame =>
    if ∀ kp ∈ frame, kp.x = 0 ∧ kp.y = 0 ∧ kp.z = 0 then some frame
    else normalizeKeypointsDetection frame).filterMap id
  let finalVector := flattenKeypointsDetection normalizedFrames
  if finalVector.length = VECTOR_LENGTH then some finalVector else none

/-- The truncate / pad / normalize / flatten / length-check portion of
Dataset.jsx `handleStopCapture` (lines 524–550); the Firestore write and UI
status updates around it are external effects and are not modelled.  A
final length mismatch aborts with an error status and discards the data,
modelled as `none`. -/
def handleStopCaptureVector (captureBuffer : List (List Keypoint)) : Option (List ℚ) :=
  let framesToProcess := captureBuffer.take TARGET_FRAME_COUNT
  let padded := framesToProcess ++
    List.replicate (TARGET_FRAME_COUNT - framesToProcess.length) zeroKeypointFrame
  let normalizedFrames := padded.map normalizeKeypointsDataset
  let finalVector := flattenKeypointsDataset normalizedFrames
  if finalVector.length = VECTOR_LENGTH then some finalVector else none

/-- The triple loop of Dataset.jsx `mirrorVector` (lines 63–74): for each
consecutive `(x, y, z)` triple push `round(-x), round(y), round(-z)`.  The
JavaScript loop steps `i` by 3 over a length-441 array, so the list is
consumed three elements at a time; a leftover of fewer than three elements
cannot occur at the only call site. -/
def mirrorTriples : List ℚ → List ℚ
  | x :: y :: z :: rest =>
      toFixed6 (-x) :: toFixed6 y :: toFixed6 (-z) :: mirrorTriples rest
  | l => l

/-- Dataset.jsx `mirrorVector` (lines 56–76): a vector whose length is not
`VECTOR_LENGTH` is returned as an (error-logged) unmodified copy; otherwise
every `(x, y, z)` triple becomes `(-x, y, -z)`, each component rounded to 6
decimals. -/
def mirrorVector (sourceVector : List ℚ) : List ℚ :=
  if sourceVector.length ≠ VECTOR_LENGTH then sourceVector
  else mirrorTriples sourceVector

/-- The dynamic FPS / sampling-gap block of Dataset.jsx `onResults`
(lines 400–409), as a pure state update.  `deltaTime` is the elapsed time
(ms) since the previous frame; the block runs only while capturing and while
the total incoming-frame counter is below `(BASE_FPS * TARGET_DURATION_MS /
1000) * 2 = 144`. -/
def updateFpsAndGap (isCapturing : Bool) (incomingFrameCounter : ℕ)
    (deltaTime : ℚ) (actualFPS : ℚ) (targetGap : ℤ) : ℚ × ℤ :=
  if isCapturing = true ∧
      (incomingFrameCounter : ℚ) < BASE_FPS * TARGET_DURATION_MS / 1000 * 2 then
    let newFPS := if 0 < deltaTime
      then actualFPS * (9 / 10) + 1000 / deltaTime * (1 / 10)
      else actualFPS
    let totalFramesExpected := newFPS * (TARGET_DURATION_MS / 1000)
    (newFPS, max 1 (jsRound (totalFramesExpected / (TARGET_FRAME_COUNT : ℚ))))
  else
    (actualFPS, targetGap)

/-- One stored reference entry (`{label, keypoints}` as loaded from the
`signData` documents in VectorStore.js). -/
structure SignEntry where
  label : String
  keypoints : List ℚ
deriving DecidableEq, Repr

/-- The mutable state of the `VectorStore` class (VectorStore.js,
constructor lines 10–14). -/
structure VectorStore where
  vectors : List SignEntry
  dimensions : ℕ
  isInitialized : Bool
deriving DecidableEq, Repr

/-- VectorStore.js `_cosineSimilarity` (lines 67–86).  The JavaScript loop
runs over the indices of `v1`, so for `v2` longer than `v1` the excess of
`v2` is ignored (both in the dot product and in `magnitude2`); the
definition below is faithful whenever `v1.length ≤ v2.length` (a shorter
`v2` would make the JavaScript computation `NaN`, which exact rationals
cannot represent; every use in the claims stays in the faithful regime). -/
noncomputable def _cosineSimilarity (v1 v2 : List ℚ) : ℝ :=
  let dotProduct : ℚ := (List.zipWith (· * ·) v1 v2).sum
  let mag1 : ℚ := (v1.map fun a => a * a).sum
  let mag2 : ℚ := ((v2.take v1.length).map fun a => a * a).sum
  let magnitude1 : ℝ := Real.sqrt (mag1 : ℝ)
  let magnitude2 : ℝ := Real.sqrt (mag2 : ℝ)
  if magnitude1 = 0 ∨ magnitude2 = 0 then 0
  else (dotProduct : ℝ) / (magnitude1 * magnitude2)

/-- The `bestMatch` record threaded through the scan loops of
`findBestMatch` / `findBestMatchAveraged`: a nullable label and the best
similarity so far (initially `{ label: null, similarity: -1 }`). -/
structure BestMatch where
  label : Option String
  similarity : ℝ

/-- VectorStore.js `findBestMatch` (lines 93–114): guard on initialization
and on the query length, then a linear scan keeping the strictly greatest
similarity (so the first-seen entry wins ties), returning `null` unless the
best similarity is strictly positive. -/
noncomputable def findBestMatch (store : VectorStore) (queryVector : List ℚ) :
    Option BestMatch :=
  if store.isInitialized = false ∨ store.vectors.length = 0 then none
  else if queryVector.length ≠ store.dimensions then none
  else
    let best := store.vectors.foldl
      (fun bestMatch storedSign =>
        let similarity := _cosineSimilarity queryVector storedSign.keypoints
        if bestMatch.similarity < similarity then ⟨some storedSign.label, similarity⟩
        else bestMatch)
      (⟨none, -1⟩ : BestMatch)
    if 0 < best.similarity then some best else none

/-- Worker for `jsSplitOnSpace`: walk the character list, cutting at every
space (structurally recursive, so concrete labels evaluate inside
proofs). -/
def jsSplitOnSpaceAux : List Char → List Char → List String
  | [], acc => [String.mk acc.reverse]
  | c :: rest, acc =>
      if c = ' ' then String.mk acc.reverse :: jsSplitOnSpaceAux rest []
      else jsSplitOnSpaceAux rest (c :: acc)

/-- JavaScript `label.split(' ')`: split at every single space, keeping
empty pieces (the ECMA semantics of `split` with a one-character
separator). -/
def jsSplitOnSpace (s : String) : List String :=
  jsSplitOnSpaceAux s.data []

/-- JavaScript `s.toUpperCase()` on the basic-latin labels used here:
uppercase every character. -/
def jsToUpper (s : String) : String :=
  String.mk (s.data.map Char.toUpper)

/-- The `signKey` of a label: `label.split(' ').slice(0, 2).join(' ')`
(VectorStore.js line 128), e.g. `"RIGHT A 1" ↦ "RIGHT A"`. -/
def signKeyOf (label : String) : String :=
  String.intercalate " " ((jsSplitOnSpace label).take 2)

/-- One step of the `reduce` in `findBestMatchAveraged`: append `kp` to the
group of `key`, creating the group at the end if absent.  This mirrors a
JavaScript object keyed by sign keys: keys appear in first-insertion order
(the sign keys produced here contain a space, so none is an array index and
`for...in` iterates them in insertion order). -/
def groupInsert (acc : List (String × List (List ℚ))) (key : String)
    (kp : List ℚ) : List (String × List (List ℚ)) :=
  match acc with
  | [] => [(key, [kp])]
  | (k, vs) :: rest =>
      if k = key then (k, vs ++ [kp]) :: rest
      else (k, vs) :: groupInsert rest key kp

/-- The grouping `reduce` of `findBestMatchAveraged` (lines 127–132):
group every stored entry's keypoints under its sign key. -/
def groupedVectors (vectors : List SignEntry) : List (String × List (List ℚ)) :=
  vectors.foldl (fun acc curr => groupInsert acc (signKeyOf curr.label) curr.keypoints) []

/-- The averaging loop of `findBestMatchAveraged` (lines 139–152):
`avgVector` has exactly `dimensions` components; component `i` is the sum
of the group's components at `i` divided by the group size.  (JavaScript
reads `v[i]` for `i < dimensions`; under the store invariant that every
vector has `dimensions` components, `getD i 0` coincides with it.) -/
def averageVector (dimensions : ℕ) (vectors : List (List ℚ)) : List ℚ :=
  (List.range dimensions).map fun i =>
    (vectors.map fun v => v.getD i 0).sum / (vectors.length : ℚ)

/-- VectorStore.js `findBestMatchAveraged` (lines 123–163): guard only on
initialization / emptiness (there is no query-length guard), group entries
by sign key, compare the query against each group's average vector, keep
the strictly greatest similarity, and return `null` unless it is strictly
positive. -/
noncomputable def findBestMatchAveraged (store : VectorStore) (queryVector : List ℚ) :
    Option BestMatch :=
  if store.isInitialized = false ∨ store.vectors.length = 0 then none
  else
    let grouped := groupedVectors store.vectors
    let best := grouped.foldl
      (fun bestMatch g =>
        let avgVector := averageVector store.dimensions g.2
        let similarity := _cosineSimilarity queryVector avgVector
        if bestMatch.similarity < similarity then ⟨some g.1, similarity⟩
        else bestMatch)
      (⟨none, -1⟩ : BestMatch)
    if 0 < best.similarity then some best else none

/-- One raw Firestore document as read by `loadFromFirebase`:
`data.keypoints` may fail the `Array.isArray` check, modelled by `none`
(normalized to `[]` during load). -/
structure RawDoc where
  label : String
  keypoints : Option (List ℚ)

/-- VectorStore.js `loadFromFirebase` (lines 20–59) as a function of the
fetch outcome: an already-initialized store returns unchanged; a fetch
error (the `catch` branch, lines 52–58) resets the store to empty and
uninitialized and returns 0; otherwise non-array keypoints become `[]`,
empty vectors are filtered out, and a nonempty result initializes the
store with the first entry's length as `dimensions`. -/
def loadFromFirebase (store : VectorStore) (fetched : Except String (List RawDoc)) :
    VectorStore × ℕ :=
  if store.isInitialized then (store, store.vectors.length)
  else
    match fetched with
    | .error _ => (⟨[], 0, false⟩, 0)
    | .ok docs =>
        let signData := (docs.map fun d => SignEntry.mk d.label (d.keypoints.getD [])).filter
          fun d => 0 < d.keypoints.length
        if 0 < signData.length then
          (⟨signData, (signData.headD ⟨"", []⟩).keypoints.length, true⟩, signData.length)
        else
          (store, signData.length)

/-- The failure reasons surfaced by the Detection decision effect
(`setFailureMessage`): `NO_MATCH`, or `WRONG_SIGN` carrying the matched
letter (the `WRONG_SIGN:<letter>` message). -/
inductive FailureReason
  | NO_MATCH
  | WRONG_SIGN (matchedLetter : String)
deriving DecidableEq, Repr

/-- The decision outcome visible to the surrounding component: `success`
(`setResult(true)`) or `failure` with a reason (`setResult(false)` plus the
failure message). -/
inductive DecisionOutcome
  | success
  | failure (reason : FailureReason)
deriving DecidableEq, Repr

/-- The observable result of one completed sequence match: the outcome and
the displayed score (`setCurrentScore`). -/
structure Decision where
  outcome : DecisionOutcome
  currentScore : ℤ
deriving DecidableEq, Repr

/-- The sequence-match decision effect of Detection.jsx (lines 1074–1130)
as a pure function of the averaged best match, the detected hand type and
the target letter.  `bestMatch.label.split(' ')[0]` / `[1]` are modelled
with `getD`, the JavaScript `undefined` for a missing part becoming `""`
(every label produced by `findBestMatchAveraged` has both parts).
`WRONG_SIGN` requires `isTargetHand`: a strong match on the wrong hand
falls through to `NO_MATCH`. -/
noncomputable def decideMatch (bestMatch : Option (String × ℝ))
    (handType : String) (currentLetter : String) : Decision :=
  match bestMatch with
  | none => ⟨.failure .NO_MATCH, 0⟩
  | some (label, similarityScore) =>
      let scorePercent := jsRound (similarityScore * 100)
      let matchedLetter := (jsSplitOnSpace label).getD 1 ""
      let matchedHand := (jsSplitOnSpace label).getD 0 ""
      let isTargetHand := matchedHand = jsToUpper handType
      let isMatchCorrectLetter := matchedLetter = currentLetter
      if isTargetHand ∧ isMatchCorrectLetter ∧
          (SIMILARITY_THRESHOLD : ℝ) ≤ similarityScore then
        ⟨.success, scorePercent⟩
      else if isTargetHand ∧ (SIMILARITY_THRESHOLD : ℝ) ≤ similarityScore then
        ⟨.failure (.WRONG_SIGN matchedLetter), scorePercent⟩
      else
        ⟨.failure .NO_MATCH, scorePercent⟩

/-! ### Helper lemmas -/

/-- Subtracting the wrist from an all-zero frame returns the frame itself. -/
lemma map_sub_wrist_allZero (kps : List Keypoint)
    (hz : ∀ kp ∈ kps, kp.x = 0 ∧ kp.y = 0 ∧ kp.z = 0) :
    (kps.map fun kp =>
      (⟨kp.x - (kps.headD ZERO_KEYPOINT).x, kp.y - (kps.headD ZERO_KEYPOINT).y,
        kp.z - (kps.headD ZERO_KEYPOINT).z⟩ : Keypoint)) = kps := by
  have hw : kps.headD ZERO_KEYPOINT = ZERO_KEYPOINT := by
    cases kps with
    | nil => rfl
    | cons k rest =>
        obtain ⟨hx, hy, hzz⟩ := hz k (by simp)
        simp only [List.headD_cons]
        cases k
        simp_all [ZERO_KEYPOINT]
  rw [hw]
  have : ∀ kp ∈ kps,
      (⟨kp.x - ZERO_KEYPOINT.x, kp.y - ZERO_KEYPOINT.y, kp.z - ZERO_KEYPOINT.z⟩ : Keypoint)
        = kp := by
    intro kp _
    simp [ZERO_KEYPOINT]
  rw [List.map_congr_left this, List.map_id']

/-! ### C5 -/

/-- C5 (corrected): Dataset's `normalizeKeypoints` does not fail on an input
without exactly 21 landmarks — it returns the input unchanged (Detection's
copy returns `null`).  Here on a concrete 1-landmark frame. -/
theorem normalizeKeypoints_wrong_length_cex :
    normalizeKeypointsDataset [⟨1, 2, 3⟩] = [⟨1, 2, 3⟩] ∧
    normalizeKeypointsDetection [⟨1, 2, 3⟩] = none ∧
    ([(⟨1, 2, 3⟩ : Keypoint)].length ≠ 21) := by
  refine ⟨?_, ?_, by decide⟩
  · simp [normalizeKeypointsDataset]
  · simp [normalizeKeypointsDetection]

/-- C5 (amended): Detection's `normalizeKeypoints` returns `null` for any
input without exactly 21 landmarks, while Dataset's returns such inputs
unchanged; a 21-landmark all-zero frame is passed through unchanged by
both; a 21-landmark frame that is not all zeros gets the wrist (landmark 0)
subtracted componentwise, so landmark 0 of the output is the origin. -/
theorem normalizeKeypoints_spec (kps : List Keypoint) :
    (kps.length ≠ 21 →
      normalizeKeypointsDataset kps = kps ∧ normalizeKeypointsDetection kps = none) ∧
    (kps.length = 21 → (∀ kp ∈ kps, kp.x = 0 ∧ kp.y = 0 ∧ kp.z = 0) →
      normalizeKeypointsDataset kps = kps ∧ normalizeKeypointsDetection kps = some kps) ∧
    (kps.length = 21 → ¬ (∀ kp ∈ kps, kp.x = 0 ∧ kp.y = 0 ∧ kp.z = 0) →
      normalizeKeypointsDataset kps =
        (kps.map fun kp =>
          ⟨kp.x - (kps.headD ZERO_KEYPOINT).x, kp.y - (kps.headD ZERO_KEYPOINT).y,
           kp.z - (kps.headD ZERO_KEYPOINT).z⟩) ∧
      normalizeKeypointsDetection kps = some (normalizeKeypointsDataset kps) ∧
      (normalizeKeypointsDataset kps).headD ZERO_KEYPOINT = ZERO_KEYPOINT) := by
  refine ⟨fun hne => ⟨?_, ?_⟩, fun h21 hz => ⟨?_, ?_⟩, fun h21 hz => ?_⟩
  · simp [normalizeKeypointsDataset, hne]
  · simp [normalizeKeypointsDetection, hne]
  · rw [normalizeKeypointsDataset, if_pos (Or.inr hz)]
  · rw [normalizeKeypointsDetection, if_neg (by simp [h21])]
    show some (kps.map fun kp =>
      (⟨kp.x - (kps.headD ZERO_KEYPOINT).x, kp.y - (kps.headD ZERO_KEYPOINT).y,
        kp.z - (kps.headD ZERO_KEYPOINT).z⟩ : Keypoint)) = some kps
    rw [map_sub_wrist_allZero kps hz]
  · have hds : normalizeKeypointsDataset kps =
        kps.map fun kp =>
          (⟨kp.x - (kps.headD ZERO_KEYPOINT).x, kp.y - (kps.headD ZERO_KEYPOINT).y,
            kp.z - (kps.headD ZERO_KEYPOINT).z⟩ : Keypoint) := by
      rw [normalizeKeypointsDataset, if_neg (by simp [h21, hz])]
    refine ⟨hds, ?_, ?_⟩
    · rw [normalizeKeypointsDetection, if_neg (by simp [h21]), hds]
    · rw [hds]
      cases kps with
      | nil => simp at h21
      | cons k rest => simp [ZERO_KEYPOINT]

/-- C5 witness: the amended theorem applied to a concrete 1-landmark frame. -/
theorem normalizeKeypoints_spec_witness :
    normalizeKeypointsDataset [⟨5, 6, 7⟩] = [⟨5, 6, 7⟩] ∧
    normalizeKeypointsDetection [⟨5, 6, 7⟩] = none :=
  (normalizeKeypoints_spec [⟨5, 6, 7⟩]).1 (by decide)

/-! ### C9 -/

/-- C9 (confirmed): on every frame of exactly 21 landmarks the two
normalizers agree — Detection's returns `some` of exactly what Dataset's
returns, including on all-zero frames where Dataset's explicit passthrough
coincides with subtracting the zero wrist. -/
theorem normalizers_agree (kps : List Keypoint) (h21 : kps.length = 21) :
    normalizeKeypointsDetection kps = some (normalizeKeypointsDataset kps) := by
  by_cases hz : ∀ kp ∈ kps, kp.x = 0 ∧ kp.y = 0 ∧ kp.z = 0
  · rw [normalizeKeypointsDetection, if_neg (by simp [h21]),
      normalizeKeypointsDataset, if_pos (Or.inr hz)]
    show some (kps.map fun kp =>
      (⟨kp.x - (kps.headD ZERO_KEYPOINT).x, kp.y - (kps.headD ZERO_KEYPOINT).y,
        kp.z - (kps.headD ZERO_KEYPOINT).z⟩ : Keypoint)) = some kps
    rw [map_sub_wrist_allZero kps hz]
  · rw [normalizeKeypointsDetection, if_neg (by simp [h21]),
      normalizeKeypointsDataset, if_neg (by simp [h21, hz])]

/-- C9 witness: the two normalizers agree on a concrete all-zero 21-landmark
frame. -/
theorem normalizers_agree_witness :
    normalizeKeypointsDetection (List.replicate 21 ZERO_KEYPOINT) =
      some (normalizeKeypointsDataset (List.replicate 21 ZERO_KEYPOINT)) :=
  normalizers_agree (List.replicate 21 ZERO_KEYPOINT) (by simp)

/-! ### C6 -/

/-- C6 (confirmed): during an active capture, while the total incoming-frame
counter is below the safety bound `(BASE_FPS * TARGET_DURATION_MS / 1000) *
2 = 144`, the FPS estimate is updated as `0.9 * old + 0.1 * (1000 /
deltaTime)` and the sampling gap becomes `max 1 (round(newFPS * 3 / 7))`;
outside the capture window or at or beyond the bound, both are left
unchanged. -/
theorem updateFpsAndGap_spec (isCapturing : Bool) (counter : ℕ)
    (deltaTime fps : ℚ) (gap : ℤ) :
    ((counter : ℚ) < 144 → 0 < deltaTime →
      updateFpsAndGap true counter deltaTime fps gap =
        (fps * (9 / 10) + 1000 / deltaTime * (1 / 10),
         max 1 (jsRound ((fps * (9 / 10) + 1000 / deltaTime * (1 / 10)) * 3 / 7)))) ∧
    (¬ (counter : ℚ) < 144 →
      updateFpsAndGap isCapturing counter deltaTime fps gap = (fps, gap)) ∧
    (updateFpsAndGap false counter deltaTime fps gap = (fps, gap)) := by
  have hbound : BASE_FPS * TARGET_DURATION_MS / 1000 * 2 = (144 : ℚ) := by
    norm_num [BASE_FPS, TARGET_DURATION_MS]
  refine ⟨fun hc hdt => ?_, fun hc => ?_, ?_⟩
  · rw [updateFpsAndGap, if_pos ⟨rfl, by rw [hbound]; exact hc⟩]
    rw [if_pos hdt]
    have h3 : TARGET_DURATION_MS / 1000 = (3 : ℚ) := by norm_num [TARGET_DURATION_MS]
    have h7 : ((TARGET_FRAME_COUNT : ℕ) : ℚ) = 7 := by norm_num [TARGET_FRAME_COUNT]
    rw [h3, h7]
  · rw [updateFpsAndGap, if_neg]
    rintro ⟨-, hlt⟩
    exact hc (by rwa [hbound] at hlt)
  · rw [updateFpsAndGap, if_neg]
    rintro ⟨h, -⟩
    exact Bool.false_ne_true h

/-- C6 witness: one concrete update step inside the capture window. -/
theorem updateFpsAndGap_spec_witness :
    updateFpsAndGap true 0 100 24 10 =
      (24 * (9 / 10) + 1000 / 100 * (1 / 10),
       max 1 (jsRound (((24 : ℚ) * (9 / 10) + 1000 / 100 * (1 / 10)) * 3 / 7))) :=
  (updateFpsAndGap_spec true 0 100 24 10).1 (by norm_num) (by norm_num)

/-! ### C10 -/

/-- C10 (confirmed): a failed load leaves the store empty and uninitialized
(`vectors = []`, `dimensions = 0`, `isInitialized = false`, returning 0),
and both lookup methods return `null` on the resulting store for every
query. -/
theorem loadFromFirebase_error_spec (store : VectorStore) (err : String)
    (queryVector : List ℚ) (h : store.isInitialized = false) :
    (loadFromFirebase store (.error err)).1 = ⟨[], 0, false⟩ ∧
    (loadFromFirebase store (.error err)).2 = 0 ∧
    findBestMatch (loadFromFirebase store (.error err)).1 queryVector = none ∧
    findBestMatchAveraged (loadFromFirebase store (.error err)).1 queryVector = none := by
  have hload : loadFromFirebase store (.error err) = (⟨[], 0, false⟩, 0) := by
    simp [loadFromFirebase, h]
  refine ⟨by rw [hload], by rw [hload], ?_, ?_⟩
  · rw [hload, findBestMatch, if_pos (Or.inl rfl)]
  · rw [hload, findBestMatchAveraged, if_pos (Or.inl rfl)]

/-- C10 witness: a concrete failed load on a fresh store. -/
theorem loadFromFirebase_error_spec_witness :
    findBestMatch (loadFromFirebase ⟨[], 0, false⟩ (.error "network down")).1 [1, 2] = none :=
  (loadFromFirebase_error_spec ⟨[], 0, false⟩ "network down" [1, 2] rfl).2.2.1

/-! ### C4 helper lemmas -/

/-- Flattening one frame yields three numbers per landmark. -/
lemma tripleFlat_length (f : List Keypoint) :
    (f.flatMap fun kp => [kp.x, kp.y, kp.z]).length = 3 * f.length := by
  induction f with
  | nil => rfl
  | cons k rest ih =>
      simp only [List.flatMap_cons, List.length_append, List.length_cons,
        List.length_nil, ih]
      omega

/-- Flattening frames of 21 landmarks yields 63 numbers per frame. -/
lemma flattenKeypointsDetection_length (frames : List (List Keypoint))
    (h : ∀ f ∈ frames, f.length = 21) :
    (flattenKeypointsDetection frames).length = frames.length * 63 := by
  induction frames with
  | nil => rfl
  | cons f rest ih =>
      have hf := h f (by simp)
      have hr := ih fun g hg => h g (by simp [hg])
      simp only [flattenKeypointsDetection, List.flatMap_cons, List.length_append,
        tripleFlat_length, hf, List.length_cons] at hr ⊢
      omega

/-- The Dataset flatten is the Detection flatten followed by rounding. -/
lemma flattenKeypointsDataset_eq (frames : List (List Keypoint)) :
    flattenKeypointsDataset frames = (flattenKeypointsDetection frames).map toFixed6 := rfl

/-- Dataset normalization never changes the number of landmarks. -/
lemma normalizeKeypointsDataset_length (kps : List Keypoint) :
    (normalizeKeypointsDataset kps).length = kps.length := by
  rw [normalizeKeypointsDataset]
  split
  · rfl
  · exact List.length_map _ _

/-- Collapsing a list of `some` frames of 21 landmarks. -/
lemma filterMap_id_all_some (l : List (List Keypoint))
    (g : List Keypoint → Option (List Keypoint))
    (h : ∀ a ∈ l, ∃ b, g a = some b ∧ b.length = 21) :
    ((l.map g).filterMap id).length = l.length ∧
      ∀ b ∈ (l.map g).filterMap id, b.length = 21 := by
  induction l with
  | nil => simp
  | cons a rest ih =>
      obtain ⟨b, hb, hb21⟩ := h a (by simp)
      obtain ⟨ihlen, ihmem⟩ := ih fun c hc => h c (by simp [hc])
      refine ⟨?_, ?_⟩
      · simp only [List.map_cons, List.filterMap_cons, hb, id_eq, ihlen, List.length_cons]
      · intro c hc
        simp only [List.map_cons, List.filterMap_cons, hb, id_eq, List.mem_cons] at hc
        rcases hc with rfl | hc
        · exact hb21
        · exact ihmem c hc

/-- The padded frame list always has exactly `TARGET_FRAME_COUNT` frames. -/
lemma padded_length (buffer : List (List Keypoint)) :
    (buffer.take TARGET_FRAME_COUNT ++
      List.replicate (TARGET_FRAME_COUNT - (buffer.take TARGET_FRAME_COUNT).length)
        zeroKeypointFrame).length = TARGET_FRAME_COUNT := by
  simp only [List.length_append, List.length_replicate, List.length_take,
    TARGET_FRAME_COUNT]
  omega

/-- Every frame of the padded list of a well-formed buffer has 21 landmarks. -/
lemma padded_mem (buffer : List (List Keypoint)) (h : ∀ f ∈ buffer, f.length = 21) :
    ∀ f ∈ buffer.take TARGET_FRAME_COUNT ++
      List.replicate (TARGET_FRAME_COUNT - (buffer.take TARGET_FRAME_COUNT).length)
        zeroKeypointFrame, f.length = 21 := by
  intro f hf
  rcases List.mem_append.1 hf with hf | hf
  · exact h f (List.take_subset _ _ hf)
  · rw [List.eq_of_mem_replicate hf]
    simp [zeroKeypointFrame]

/-- On a buffer of 21-landmark frames the Detection pipeline succeeds with a
441-vector. -/
lemma processSequenceToVector_success (buffer : List (List Keypoint))
    (h : ∀ f ∈ buffer, f.length = 21) :
    ∃ v, processSequenceToVector buffer = some v ∧ v.length = VECTOR_LENGTH := by
  have hpm := padded_mem buffer h
  have hpl := padded_length buffer
  have hsome : ∀ f ∈ buffer.take TARGET_FRAME_COUNT ++
      List.replicate (TARGET_FRAME_COUNT - (buffer.take TARGET_FRAME_COUNT).length)
        zeroKeypointFrame,
      ∃ b, (if ∀ kp ∈ f, kp.x = 0 ∧ kp.y = 0 ∧ kp.z = 0 then some f
            else normalizeKeypointsDetection f) = some b ∧ b.length = 21 := by
    intro f hf
    by_cases hz : ∀ kp ∈ f, kp.x = 0 ∧ kp.y = 0 ∧ kp.z = 0
    · exact ⟨f, by rw [if_pos hz], hpm f hf⟩
    · refine ⟨f.map fun kp =>
        ⟨kp.x - (f.headD ZERO_KEYPOINT).x, kp.y - (f.headD ZERO_KEYPOINT).y,
         kp.z - (f.headD ZERO_KEYPOINT).z⟩, ?_, by simp [hpm f hf]⟩
      rw [if_neg hz, normalizeKeypointsDetection, if_neg (by simp [hpm f hf])]
  obtain ⟨hflen, hfmem⟩ := filterMap_id_all_some _ _ hsome
  have hv : (flattenKeypointsDetection
      ((((buffer.take TARGET_FRAME_COUNT ++
        List.replicate (TARGET_FRAME_COUNT - (buffer.take TARGET_FRAME_COUNT).length)
          zeroKeypointFrame)).map fun frame =>
          if ∀ kp ∈ frame, kp.x = 0 ∧ kp.y = 0 ∧ kp.z = 0 then some frame
          else normalizeKeypointsDetection frame).filterMap id)).length = VECTOR_LENGTH := by
    rw [flattenKeypointsDetection_length _ hfmem, hflen, hpl]
    decide
  simp only [processSequenceToVector, hv, if_true]
  exact ⟨_, rfl, hv⟩

/-- On a buffer of 21-landmark frames the Dataset pipeline succeeds with a
441-vector. -/
lemma handleStopCaptureVector_success (buffer : List (List Keypoint))
    (h : ∀ f ∈ buffer, f.length = 21) :
    ∃ v, handleStopCaptureVector buffer = some v ∧ v.length = VECTOR_LENGTH := by
  have hpm := padded_mem buffer h
  have hpl := padded_length buffer
  have hmem : ∀ f ∈ (buffer.take TARGET_FRAME_COUNT ++
      List.replicate (TARGET_FRAME_COUNT - (buffer.take TARGET_FRAME_COUNT).length)
        zeroKeypointFrame).map normalizeKeypointsDataset, f.length = 21 := by
    intro f hf
    obtain ⟨g, hg, rfl⟩ := List.mem_map.1 hf
    rw [normalizeKeypointsDataset_length]
    exact hpm g hg
  have hv : (flattenKeypointsDataset
      ((buffer.take TARGET_FRAME_COUNT ++
        List.replicate (TARGET_FRAME_COUNT - (buffer.take TARGET_FRAME_COUNT).length)
          zeroKeypointFrame).map normalizeKeypointsDataset)).length = VECTOR_LENGTH := by
    rw [flattenKeypointsDataset_eq, List.length_map,
      flattenKeypointsDetection_length _ hmem, List.length_map, hpl]
    decide
  simp only [handleStopCaptureVector, hv, if_true]
  exact ⟨_, rfl, hv⟩

/-- Any vector produced by the Detection pipeline has length 441. -/
lemma processSequenceToVector_some_length (buffer : List (List Keypoint)) :
    ∀ v, processSequenceToVector buffer = some v → v.length = VECTOR_LENGTH := by
  intro v hv
  simp only [processSequenceToVector] at hv
  split at hv
  · next hc => cases hv; exact hc
  · cases hv

/-- Any vector produced by the Dataset pipeline has length 441. -/
lemma handleStopCaptureVector_some_length (buffer : List (List Keypoint)) :
    ∀ v, handleStopCaptureVector buffer = some v → v.length = VECTOR_LENGTH := by
  intro v hv
  simp only [handleStopCaptureVector] at hv
  split at hv
  · next hc => cases hv; exact hc
  · cases hv

/-- The Detection pipeline only reads the first 7 frames. -/
lemma processSequenceToVector_take (buffer : List (List Keypoint)) :
    processSequenceToVector buffer =
      processSequenceToVector (buffer.take TARGET_FRAME_COUNT) := by
  simp only [processSequenceToVector, List.take_take, min_self]

/-- The Dataset pipeline only reads the first 7 frames. -/
lemma handleStopCaptureVector_take (buffer : List (List Keypoint)) :
    handleStopCaptureVector buffer =
      handleStopCaptureVector (buffer.take TARGET_FRAME_COUNT) := by
  simp only [handleStopCaptureVector, List.take_take, min_self]

/-- Explicitly right-padding a short buffer with zero-frames does not change
the Detection pipeline's result. -/
lemma processSequenceToVector_pad (buffer : List (List Keypoint))
    (hle : buffer.length ≤ TARGET_FRAME_COUNT) :
    processSequenceToVector buffer =
      processSequenceToVector (buffer ++
        List.replicate (TARGET_FRAME_COUNT - buffer.length) zeroKeypointFrame) := by
  have h1 : buffer.take TARGET_FRAME_COUNT = buffer := List.take_of_length_le hle
  have hlen2 : (buffer ++
      List.replicate (TARGET_FRAME_COUNT - buffer.length) zeroKeypointFrame).length =
      TARGET_FRAME_COUNT := by
    simp only [List.length_append, List.length_replicate]
    omega
  have h2 : (buffer ++
      List.replicate (TARGET_FRAME_COUNT - buffer.length) zeroKeypointFrame).take
        TARGET_FRAME_COUNT =
      buffer ++ List.replicate (TARGET_FRAME_COUNT - buffer.length) zeroKeypointFrame :=
    List.take_of_length_le (le_of_eq hlen2)
  simp only [processSequenceToVector, h1, h2, hlen2, Nat.sub_self, List.replicate_zero,
    List.append_nil]

/-! ### C4 -/

/-- C4 (confirmed): for every buffer whose frames each have 21 landmarks
(detected frames or zero-frames), both the Detection pipeline
(`processSequenceToVector`) and the Dataset pipeline (the encode part of
`handleStopCapture`) produce `some` flat vector of exactly `VECTOR_LENGTH =
441` numbers; any produced vector has length 441 (a mismatch is reported as
`none`, never silently resized); the result depends only on the first
`TARGET_FRAME_COUNT = 7` frames, and a short buffer is equivalent to the
same buffer right-padded with zero-frames. -/
theorem sequence_finalize_encode_spec (buffer : List (List Keypoint)) :
    ((∀ f ∈ buffer, f.length = 21) →
      (∃ v, processSequenceToVector buffer = some v ∧ v.length = VECTOR_LENGTH) ∧
      (∃ v, handleStopCaptureVector buffer = some v ∧ v.length = VECTOR_LENGTH)) ∧
    (∀ v, processSequenceToVector buffer = some v → v.length = VECTOR_LENGTH) ∧
    (∀ v, handleStopCaptureVector buffer = some v → v.length = VECTOR_LENGTH) ∧
    processSequenceToVector buffer =
      processSequenceToVector (buffer.take TARGET_FRAME_COUNT) ∧
    handleStopCaptureVector buffer =
      handleStopCaptureVector (buffer.take TARGET_FRAME_COUNT) ∧
    (buffer.length ≤ TARGET_FRAME_COUNT →
      processSequenceToVector buffer =
        processSequenceToVector (buffer ++
          List.replicate (TARGET_FRAME_COUNT - buffer.length) zeroKeypointFrame)) :=
  ⟨fun h => ⟨processSequenceToVector_success buffer h,
     handleStopCaptureVector_success buffer h⟩,
   processSequenceToVector_some_length buffer,
   handleStopCaptureVector_some_length buffer,
   processSequenceToVector_take buffer,
   handleStopCaptureVector_take buffer,
   fun hle => processSequenceToVector_pad buffer hle⟩

/-- C4 witness: the empty buffer encodes to a 441-vector on both pipelines. -/
theorem sequence_finalize_encode_spec_witness :
    (∃ v, processSequenceToVector [] = some v ∧ v.length = VECTOR_LENGTH) ∧
    (∃ v, handleStopCaptureVector [] = some v ∧ v.length = VECTOR_LENGTH) :=
  (sequence_finalize_encode_spec []).1 (by simp)

/-! ### C8 helper lemmas -/

/-- A sum of squares of rationals is nonnegative. -/
lemma sum_squares_nonneg (l : List ℚ) : 0 ≤ (l.map fun a => a * a).sum := by
  refine List.sum_nonneg ?_
  intro x hx
  obtain ⟨a, -, rfl⟩ := List.mem_map.1 hx
  exact mul_self_nonneg a

/-- A sum of squares of rationals with a nonzero element is positive. -/
lemma sum_squares_pos (l : List ℚ) (h : ∃ a ∈ l, a ≠ 0) :
    0 < (l.map fun a => a * a).sum := by
  obtain ⟨a, ha, hne⟩ := h
  have h1 : a * a ≤ (l.map fun a => a * a).sum := by
    refine List.single_le_sum ?_ _ (List.mem_map_of_mem _ ha)
    intro x hx
    obtain ⟨b, -, rfl⟩ := List.mem_map.1 hx
    exact mul_self_nonneg b
  exact lt_of_lt_of_le (mul_self_pos.2 hne) h1

/-! ### C8 -/

/-- C8 (confirmed): on equal-length vectors, `_cosineSimilarity` equals
`dot(a,b) / (‖a‖ * ‖b‖)` when both magnitudes are nonzero and is exactly 0
when either magnitude is zero (no division by zero); consequently
`similarity(v, v) = 1` for every vector with a nonzero component (exact
arithmetic makes the claim's `≈ 1.0` exact) and `similarity(v, 0⃗) = 0`. -/
theorem cosineSimilarity_spec :
    (∀ v1 v2 : List ℚ, v1.length = v2.length →
      ((v1.map fun a => a * a).sum ≠ 0 → (v2.map fun a => a * a).sum ≠ 0 →
        _cosineSimilarity v1 v2 =
          (((List.zipWith (· * ·) v1 v2).sum : ℚ) : ℝ) /
            (Real.sqrt (((v1.map fun a => a * a).sum : ℚ) : ℝ) *
             Real.sqrt (((v2.map fun a => a * a).sum : ℚ) : ℝ))) ∧
      ((v1.map fun a => a * a).sum = 0 ∨ (v2.map fun a => a * a).sum = 0 →
        _cosineSimilarity v1 v2 = 0)) ∧
    (∀ v : List ℚ, (∃ a ∈ v, a ≠ 0) → _cosineSimilarity v v = 1) ∧
    (∀ v : List ℚ, _cosineSimilarity v (List.replicate v.length 0) = 0) := by
  refine ⟨fun v1 v2 hlen => ⟨fun h1 h2 => ?_, fun h0 => ?_⟩, fun v hv => ?_, fun v => ?_⟩
  · have htake : v2.take v1.length = v2 := by rw [hlen]; exact List.take_length v2
    have hp1 : (0 : ℝ) < (((v1.map fun a => a * a).sum : ℚ) : ℝ) := by
      exact_mod_cast lt_of_le_of_ne (sum_squares_nonneg v1) (Ne.symm h1)
    have hp2 : (0 : ℝ) < (((v2.map fun a => a * a).sum : ℚ) : ℝ) := by
      exact_mod_cast lt_of_le_of_ne (sum_squares_nonneg v2) (Ne.symm h2)
    simp only [_cosineSimilarity, htake]
    rw [if_neg]
    push_neg
    exact ⟨Real.sqrt_ne_zero'.2 hp1, Real.sqrt_ne_zero'.2 hp2⟩
  · have htake : v2.take v1.length = v2 := by rw [hlen]; exact List.take_length v2
    simp only [_cosineSimilarity, htake]
    rw [if_pos]
    rcases h0 with h0 | h0
    · exact Or.inl (by rw [h0]; simp [Real.sqrt_zero])
    · exact Or.inr (by rw [h0]; simp [Real.sqrt_zero])
  · have hzip : List.zipWith (· * ·) v v = v.map fun a => a * a := by
      induction v with
      | nil => rfl
      | cons a rest ih => simp [List.zipWith_cons_cons, ih]
    have hm : (0 : ℚ) < (v.map fun a => a * a).sum := sum_squares_pos v hv
    have hmr : (0 : ℝ) < (((v.map fun a => a * a).sum : ℚ) : ℝ) := by exact_mod_cast hm
    have hne : ¬ (Real.sqrt (((v.map fun a => a * a).sum : ℚ) : ℝ) = 0 ∨
        Real.sqrt (((v.map fun a => a * a).sum : ℚ) : ℝ) = 0) := by
      push_neg
      exact ⟨Real.sqrt_ne_zero'.2 hmr, Real.sqrt_ne_zero'.2 hmr⟩
    simp only [_cosineSimilarity, List.take_length, hzip]
    rw [if_neg hne, Real.mul_self_sqrt (le_of_lt hmr)]
    exact div_self (ne_of_gt hmr)
  · have htake : (List.replicate v.length (0 : ℚ)).take v.length =
        List.replicate v.length 0 := by
      rw [List.take_replicate, min_self]
    have hm2 : ((List.replicate v.length (0 : ℚ)).map fun a => a * a).sum = 0 := by
      simp [List.map_replicate]
    have hz : Real.sqrt ((((List.replicate v.length (0 : ℚ)).map
        fun a => a * a).sum : ℚ) : ℝ) = 0 := by
      rw [hm2]
      simp [Real.sqrt_zero]
    simp only [_cosineSimilarity, htake]
    rw [if_pos (Or.inr hz)]

/-- C8 witness: self-similarity of the concrete vector `[1]` is 1. -/
theorem cosineSimilarity_spec_witness : _cosineSimilarity [1] [1] = 1 :=
  cosineSimilarity_spec.2.1 [1] ⟨1, by simp, one_ne_zero⟩

/-! ### C1 -/

/-- C1 (corrected): a strong match (similarity ≥ 0.70) whose hand-side
differs from the detected hand is decided `NO_MATCH`, not `WRONG_SIGN` —
here the matched label is `"LEFT A"`, the detected hand is `"Right"`
(uppercased `"RIGHT"`), the target letter matches and the similarity 0.8 is
above threshold, yet the failure reason is `NO_MATCH`. -/
theorem detection_decision_cex :
    decideMatch (some ("LEFT A", 4 / 5)) "Right" "A" =
      ⟨.failure .NO_MATCH, 80⟩ ∧
    (SIMILARITY_THRESHOLD : ℝ) ≤ 4 / 5 ∧
    (jsSplitOnSpace "LEFT A").getD 0 "" ≠ jsToUpper "Right" := by
  have hsplit : jsSplitOnSpace "LEFT A" = ["LEFT", "A"] := by decide
  have hhand : jsToUpper "Right" = "RIGHT" := by decide
  have h80 : jsRound ((4 : ℝ) / 5 * 100) = 80 := by
    rw [jsRound, Int.floor_eq_iff]
    constructor <;> norm_num
  refine ⟨?_, by norm_num [SIMILARITY_THRESHOLD], by rw [hsplit, hhand]; decide⟩
  simp only [decideMatch, hsplit, hhand, List.getD_cons_zero, List.getD_cons_succ]
  rw [if_neg (by rintro ⟨h, -⟩; exact absurd h (by decide)),
    if_neg (by rintro ⟨h, -⟩; exact absurd h (by decide)), h80]

/-- C1 (amended): given a best averaged match, the decision is `success`
when the matched hand equals the uppercased detected hand, the matched
letter equals the target and similarity ≥ 0.70; `WRONG_SIGN` (carrying the
matched letter) when the hand matches, the letter differs and similarity ≥
0.70; `NO_MATCH` whenever the matched hand differs (regardless of
similarity) or the similarity is below 0.70; the rounded percentage score
is reported in every case, and a missing match is `NO_MATCH` with score
0. -/
theorem detection_decision_spec (label : String) (sim : ℝ)
    (handType currentLetter : String) :
    (decideMatch none handType currentLetter = ⟨.failure .NO_MATCH, 0⟩) ∧
    ((jsSplitOnSpace label).getD 0 "" = jsToUpper handType →
      (jsSplitOnSpace label).getD 1 "" = currentLetter →
      (SIMILARITY_THRESHOLD : ℝ) ≤ sim →
      decideMatch (some (label, sim)) handType currentLetter =
        ⟨.success, jsRound (sim * 100)⟩) ∧
    ((jsSplitOnSpace label).getD 0 "" = jsToUpper handType →
      (jsSplitOnSpace label).getD 1 "" ≠ currentLetter →
      (SIMILARITY_THRESHOLD : ℝ) ≤ sim →
      decideMatch (some (label, sim)) handType currentLetter =
        ⟨.failure (.WRONG_SIGN ((jsSplitOnSpace label).getD 1 "")), jsRound (sim * 100)⟩) ∧
    ((jsSplitOnSpace label).getD 0 "" ≠ jsToUpper handType →
      decideMatch (some (label, sim)) handType currentLetter =
        ⟨.failure .NO_MATCH, jsRound (sim * 100)⟩) ∧
    (sim < (SIMILARITY_THRESHOLD : ℝ) →
      decideMatch (some (label, sim)) handType currentLetter =
        ⟨.failure .NO_MATCH, jsRound (sim * 100)⟩) := by
  refine ⟨rfl, fun hh hl hs => ?_, fun hh hl hs => ?_, fun hh => ?_, fun hs => ?_⟩
  · simp only [decideMatch]
    rw [if_pos ⟨hh, hl, hs⟩]
  · simp only [decideMatch]
    rw [if_neg (by rintro ⟨-, h, -⟩; exact hl h), if_pos ⟨hh, hs⟩]
  · simp only [decideMatch]
    rw [if_neg (by rintro ⟨h, -⟩; exact hh h), if_neg (by rintro ⟨h, -⟩; exact hh h)]
  · simp only [decideMatch]
    rw [if_neg (by rintro ⟨-, -, h⟩; exact absurd h (not_le.2 hs)),
      if_neg (by rintro ⟨-, h⟩; exact absurd h (not_le.2 hs))]

/-- C1 witness: the amended theorem applied to a concrete wrong-hand
match. -/
theorem detection_decision_spec_witness :
    decideMatch (some ("LEFT B", 1 / 2)) "Right" "A" =
      ⟨.failure .NO_MATCH, jsRound ((1 / 2 : ℝ) * 100)⟩ :=
  (detection_decision_spec "LEFT B" (1 / 2) "Right" "A").2.2.2.1 (by decide)

/-! ### C7 helper lemmas -/

/-- `toFixed6` fixes every integer multiple of `10⁻⁶`. -/
lemma toFixed6_int_div (k : ℤ) : toFixed6 ((k : ℚ) / 1000000) = (k : ℚ) / 1000000 := by
  rw [toFixed6, div_mul_cancel₀ _ (by norm_num : (1000000 : ℚ) ≠ 0),
    add_comm ((k : ℚ)) (1 / 2), Int.floor_add_int]
  norm_num

/-- Every `toFixed6` value is an integer multiple of `10⁻⁶`. -/
lemma toFixed6_exists (q : ℚ) : ∃ k : ℤ, toFixed6 q = (k : ℚ) / 1000000 :=
  ⟨⌊q * 1000000 + 1 / 2⌋, rfl⟩

/-- `toFixed6` is idempotent. -/
lemma toFixed6_idem (q : ℚ) : toFixed6 (toFixed6 q) = toFixed6 q := by
  obtain ⟨k, hk⟩ := toFixed6_exists q
  rw [hk, toFixed6_int_div]

/-- Fixed points of `toFixed6` are closed under negation. -/
lemma toFixed6_neg_fix (q : ℚ) (h : toFixed6 q = q) : toFixed6 (-q) = -q := by
  obtain ⟨k, hk⟩ := toFixed6_exists q
  have hq : q = (k : ℚ) / 1000000 := by rw [← h, hk]
  have hneg : -q = ((-k : ℤ) : ℚ) / 1000000 := by rw [hq]; push_cast; ring
  rw [hneg, toFixed6_int_div]

/-- Negating a `toFixed6` value stays fixed under `toFixed6`. -/
lemma toFixed6_neg_toFixed6 (q : ℚ) : toFixed6 (-(toFixed6 q)) = -(toFixed6 q) :=
  toFixed6_neg_fix _ (toFixed6_idem q)

/-- `toFixed6` moves a rational by at most half of `10⁻⁶`. -/
lemma abs_toFixed6_sub (q : ℚ) : |toFixed6 q - q| ≤ 1 / 2000000 := by
  have h1 : ((⌊q * 1000000 + 1 / 2⌋ : ℤ) : ℚ) ≤ q * 1000000 + 1 / 2 :=
    Int.floor_le _
  have h2 : q * 1000000 + 1 / 2 - 1 < ((⌊q * 1000000 + 1 / 2⌋ : ℤ) : ℚ) :=
    Int.sub_one_lt_floor _
  rw [toFixed6, abs_le]
  constructor <;> linarith

/-- Unfolding equation of `mirrorTriples` on a full triple. -/
lemma mirrorTriples_cons3 (x y z : ℚ) (rest : List ℚ) :
    mirrorTriples (x :: y :: z :: rest) =
      toFixed6 (-x) :: toFixed6 y :: toFixed6 (-z) :: mirrorTriples rest := rfl

/-- `mirrorTriples` preserves length. -/
lemma mirrorTriples_length : ∀ v : List ℚ, (mirrorTriples v).length = v.length
  | [] => rfl
  | [_] => rfl
  | [_, _] => rfl
  | x :: y :: z :: rest => by
      rw [mirrorTriples_cons3]
      simp only [List.length_cons, mirrorTriples_length rest]

/-- On vectors whose components are 6-decimal fixed points, the double
mirror is the identity. -/
lemma mirrorTriples_involution :
    ∀ v : List ℚ, (∀ a ∈ v, toFixed6 a = a) →
      mirrorTriples (mirrorTriples v) = v
  | [], _ => rfl
  | [_], _ => rfl
  | [_, _], _ => rfl
  | x :: y :: z :: rest, h => by
      have hx := h x (by simp)
      have hy := h y (by simp)
      have hz := h z (by simp)
      rw [mirrorTriples_cons3, toFixed6_neg_fix x hx, hy, toFixed6_neg_fix z hz,
        mirrorTriples_cons3, neg_neg, neg_neg, hx, hy, hz,
        mirrorTriples_involution rest (fun a ha => h a (by simp [ha]))]

/-- Componentwise, the double mirror moves any vector by at most half of
`10⁻⁶`. -/
lemma mirrorTriples_double_getD :
    ∀ (v : List ℚ) (i : ℕ),
      |(mirrorTriples (mirrorTriples v)).getD i 0 - v.getD i 0| ≤ 1 / 2000000
  | [], i => by
      rw [show mirrorTriples (mirrorTriples ([] : List ℚ)) = [] from rfl]
      rw [sub_self, abs_zero]
      norm_num
  | [x], i => by
      rw [show mirrorTriples (mirrorTriples [x]) = [x] from rfl]
      rw [sub_self, abs_zero]
      norm_num
  | [x, y], i => by
      rw [show mirrorTriples (mirrorTriples [x, y]) = [x, y] from rfl]
      rw [sub_self, abs_zero]
      norm_num
  | x :: y :: z :: rest, i => by
      rw [mirrorTriples_cons3, mirrorTriples_cons3, toFixed6_neg_toFixed6 (-x),
        toFixed6_idem y, toFixed6_neg_toFixed6 (-z)]
      match i with
      | 0 =>
          simp only [List.getD_cons_zero]
          rw [show -(toFixed6 (-x)) - x = -(toFixed6 (-x) - -x) by ring, abs_neg]
          exact abs_toFixed6_sub (-x)
      | 1 =>
          simp only [List.getD_cons_succ, List.getD_cons_zero]
          exact abs_toFixed6_sub y
      | 2 =>
          simp only [List.getD_cons_succ, List.getD_cons_zero]
          rw [show -(toFixed6 (-z)) - z = -(toFixed6 (-z) - -z) by ring, abs_neg]
          exact abs_toFixed6_sub (-z)
      | n + 3 =>
          simp only [List.getD_cons_succ]
          exact mirrorTriples_double_getD rest n

/-! ### C7 -/

/-- C7 (corrected): `toFixed(6)` rounds ties toward `+∞`, so
negate-round-negate rounds a half-tie downward while direct rounding rounds
it upward — at `x = 1/128 = 0.0078125` (exactly halfway between two
6-decimal values) the double mirror yields `0.007812` whereas the rounded
original is `0.007813`, so `mirror(mirror(v))` equals neither `v` nor the
componentwise-rounded `v`. -/
theorem mirrorVector_double_cex :
    (mirrorVector (mirrorVector ((1 / 128 : ℚ) :: List.replicate 440 0))).getD 0 0 =
      7812 / 1000000 ∧
    (((1 / 128 : ℚ) :: List.replicate 440 0).map toFixed6).getD 0 0 = 7813 / 1000000 ∧
    mirrorVector (mirrorVector ((1 / 128 : ℚ) :: List.replicate 440 0)) ≠
      ((1 / 128 : ℚ) :: List.replicate 440 0).map toFixed6 ∧
    mirrorVector (mirrorVector ((1 / 128 : ℚ) :: List.replicate 440 0)) ≠
      (1 / 128 : ℚ) :: List.replicate 440 0 := by
  have hrep : List.replicate 440 (0 : ℚ) = 0 :: 0 :: List.replicate 438 0 := rfl
  have ht1 : toFixed6 (-(1 / 128 : ℚ)) = (-7812 : ℚ) / 1000000 := by
    rw [toFixed6]
    norm_num
  have ht0 : toFixed6 (0 : ℚ) = 0 := by
    rw [toFixed6]
    norm_num
  have ht3 : toFixed6 (-((-7812 : ℚ) / 1000000)) = 7812 / 1000000 := by
    rw [toFixed6]
    norm_num
  have hlen : ((1 / 128 : ℚ) :: List.replicate 440 0).length = VECTOR_LENGTH := by
    rw [List.length_cons, List.length_replicate]
    rfl
  have hm1 : mirrorVector ((1 / 128 : ℚ) :: List.replicate 440 0) =
      ((-7812 : ℚ) / 1000000) :: 0 :: 0 :: mirrorTriples (List.replicate 438 0) := by
    rw [mirrorVector, if_neg (fun hne => hne hlen), hrep, mirrorTriples_cons3, ht1,
      neg_zero, ht0]
  have hlen2 : (((-7812 : ℚ) / 1000000) :: 0 :: 0 ::
      mirrorTriples (List.replicate 438 0)).length = VECTOR_LENGTH := by
    simp only [List.length_cons, mirrorTriples_length, List.length_replicate]
    rfl
  have hm2 : mirrorVector (mirrorVector ((1 / 128 : ℚ) :: List.replicate 440 0)) =
      (7812 / 1000000 : ℚ) :: 0 :: 0 ::
        mirrorTriples (mirrorTriples (List.replicate 438 0)) := by
    rw [hm1, mirrorVector, if_neg (fun hne => hne hlen2), mirrorTriples_cons3, ht3,
      neg_zero, ht0]
  have hmap : (((1 / 128 : ℚ) :: List.replicate 440 0).map toFixed6).getD 0 0 =
      7813 / 1000000 := by
    rw [List.map_cons, List.getD_cons_zero, toFixed6]
    norm_num
  refine ⟨by rw [hm2, List.getD_cons_zero], hmap, ?_, ?_⟩
  · intro h
    have h0 : (mirrorVector (mirrorVector ((1 / 128 : ℚ) ::
        List.replicate 440 0))).getD 0 0 =
        (((1 / 128 : ℚ) :: List.replicate 440 0).map toFixed6).getD 0 0 := by rw [h]
    rw [hm2, List.getD_cons_zero, hmap] at h0
    norm_num at h0
  · intro h
    have h0 : (mirrorVector (mirrorVector ((1 / 128 : ℚ) ::
        List.replicate 440 0))).getD 0 0 =
        ((1 / 128 : ℚ) :: List.replicate 440 0).getD 0 0 := by rw [h]
    rw [hm2, List.getD_cons_zero, List.getD_cons_zero] at h0
    norm_num at h0

/-- C7 (amended): for every length-441 vector, the double mirror agrees with
the original componentwise to within half of the 6-decimal rounding
precision, and on vectors already rounded to 6 decimals (fixed points of
`toFixed6`) it is exactly the identity. -/
theorem mirrorVector_spec (v : List ℚ) (hlen : v.length = VECTOR_LENGTH) :
    ((∀ a ∈ v, toFixed6 a = a) → mirrorVector (mirrorVector v) = v) ∧
    (∀ i : ℕ, |(mirrorVector (mirrorVector v)).getD i 0 - v.getD i 0| ≤ 1 / 2000000) := by
  have h1 : mirrorVector v = mirrorTriples v := by
    rw [mirrorVector, if_neg (by simp [hlen])]
  have h2 : mirrorVector (mirrorTriples v) = mirrorTriples (mirrorTriples v) := by
    rw [mirrorVector, if_neg (by simp [mirrorTriples_length, hlen])]
  rw [h1, h2]
  exact ⟨fun h => mirrorTriples_involution v h, fun i => mirrorTriples_double_getD v i⟩

/-- C7 witness: the all-zero 441-vector is a fixed point of the double
mirror. -/
theorem mirrorVector_spec_witness :
    mirrorVector (mirrorVector (List.replicate VECTOR_LENGTH (0 : ℚ))) =
      List.replicate VECTOR_LENGTH 0 :=
  (mirrorVector_spec _ (by simp)).1
    (fun a ha => by rw [List.eq_of_mem_replicate ha, toFixed6]; norm_num)

/-! ### Shared fold lemma for the two scan loops of VectorStore -/

/-- Characterization of the strict-maximum scan used by `findBestMatch` and
`findBestMatchAveraged`: either no element strictly beats the accumulator
(which is then returned unchanged), or the result is the first element
attaining the maximum score — all earlier elements score strictly less, all
later ones at most as much. -/
lemma foldBest_spec {α : Type} (f : α → ℝ) (g : α → String) :
    ∀ (l : List α) (acc : BestMatch),
      (l.foldl (fun b a => if b.similarity < f a then ⟨some (g a), f a⟩ else b) acc =
          acc ∧ ∀ b ∈ l, f b ≤ acc.similarity) ∨
      (∃ l1 a l2, l = l1 ++ a :: l2 ∧
        l.foldl (fun b a => if b.similarity < f a then ⟨some (g a), f a⟩ else b) acc =
          ⟨some (g a), f a⟩ ∧
        acc.similarity < f a ∧
        (∀ b ∈ l1, f b < f a) ∧
        (∀ b ∈ l2, f b ≤ f a)) := by
  intro l
  induction l with
  | nil => exact fun acc => Or.inl ⟨rfl, by simp⟩
  | cons x xs ih =>
      intro acc
      rw [List.foldl_cons]
      by_cases hx : acc.similarity < f x
      · rw [if_pos hx]
        rcases ih ⟨some (g x), f x⟩ with ⟨heq, hle⟩ | ⟨l1, a, l2, hsplit, heq, hacc, hl1, hl2⟩
        · exact Or.inr ⟨[], x, xs, by simp, heq, hx, by simp, by simpa using hle⟩
        · refine Or.inr ⟨x :: l1, a, l2, by rw [hsplit]; rfl, heq,
            lt_trans hx (by simpa using hacc), ?_, hl2⟩
          intro b hb
          rcases List.mem_cons.1 hb with rfl | hb
          · simpa using hacc
          · exact hl1 b hb
      · rw [if_neg hx]
        rcases ih acc with ⟨heq, hle⟩ | ⟨l1, a, l2, hsplit, heq, hacc, hl1, hl2⟩
        · refine Or.inl ⟨heq, ?_⟩
          intro b hb
          rcases List.mem_cons.1 hb with rfl | hb
          · exact not_lt.1 hx
          · exact hle b hb
        · refine Or.inr ⟨x :: l1, a, l2, by rw [hsplit]; rfl, heq, hacc, ?_, hl2⟩
          intro b hb
          rcases List.mem_cons.1 hb with rfl | hb
          · exact lt_of_le_of_lt (not_lt.1 hx) hacc
          · exact hl1 b hb

/-- `findBestMatch` past its guards, with the scan loop made explicit. -/
lemma findBestMatch_eq (store : VectorStore) (q : List ℚ)
    (hg : ¬ (store.isInitialized = false ∨ store.vectors.length = 0))
    (h2 : q.length = store.dimensions) :
    findBestMatch store q =
      if 0 < (store.vectors.foldl
          (fun b e => if b.similarity < _cosineSimilarity q e.keypoints
            then ⟨some e.label, _cosineSimilarity q e.keypoints⟩ else b)
          (⟨none, -1⟩ : BestMatch)).similarity
      then some (store.vectors.foldl
          (fun b e => if b.similarity < _cosineSimilarity q e.keypoints
            then ⟨some e.label, _cosineSimilarity q e.keypoints⟩ else b)
          (⟨none, -1⟩ : BestMatch))
      else none := by
  rw [findBestMatch, if_neg hg, if_neg (fun hne => hne h2)]

/-! ### C3 -/

/-- C3 (confirmed): `findBestMatch` returns `null` exactly when the store is
uninitialized or empty, the query length differs from the stored
dimensionality, or no stored entry has strictly positive cosine similarity;
otherwise it returns the label and similarity of the first entry (in load
order) attaining the maximum similarity — earlier entries score strictly
less (first-seen wins ties), and no entry scores more. -/
theorem findBestMatch_spec (store : VectorStore) (queryVector : List ℚ) :
    (findBestMatch store queryVector = none ↔
      store.isInitialized = false ∨ store.vectors = [] ∨
      queryVector.length ≠ store.dimensions ∨
      ∀ e ∈ store.vectors, _cosineSimilarity queryVector e.keypoints ≤ 0) ∧
    (∀ r, findBestMatch store queryVector = some r →
      store.isInitialized = true ∧ store.vectors ≠ [] ∧
      queryVector.length = store.dimensions ∧ 0 < r.similarity ∧
      ∃ l1 e l2, store.vectors = l1 ++ e :: l2 ∧
        r = ⟨some e.label, _cosineSimilarity queryVector e.keypoints⟩ ∧
        (∀ b ∈ l1, _cosineSimilarity queryVector b.keypoints <
          _cosineSimilarity queryVector e.keypoints) ∧
        (∀ b ∈ store.vectors, _cosineSimilarity queryVector b.keypoints ≤
          _cosineSimilarity queryVector e.keypoints)) := by
  by_cases hg : store.isInitialized = false ∨ store.vectors.length = 0
  · have hnone : findBestMatch store queryVector = none := by
      rw [findBestMatch, if_pos hg]
    have hrhs : store.isInitialized = false ∨ store.vectors = [] ∨
        queryVector.length ≠ store.dimensions ∨
        ∀ e ∈ store.vectors, _cosineSimilarity queryVector e.keypoints ≤ 0 := by
      rcases hg with h | h
      · exact Or.inl h
      · exact Or.inr (Or.inl (List.length_eq_zero.1 h))
    refine ⟨iff_of_true hnone hrhs, ?_⟩
    intro r hr
    rw [hnone] at hr
    exact absurd hr (by simp)
  · have hinit : store.isInitialized = true := by
      rcases Bool.eq_false_or_eq_true store.isInitialized with h | h
      · exact h
      · exact absurd (Or.inl h) hg
    have hvne : store.vectors ≠ [] := by
      intro h
      exact hg (Or.inr (by rw [h]; rfl))
    by_cases h2 : queryVector.length = store.dimensions
    case neg =>
      have hnone : findBestMatch store queryVector = none := by
        rw [findBestMatch, if_neg hg, if_pos h2]
      refine ⟨iff_of_true hnone (Or.inr (Or.inr (Or.inl h2))), ?_⟩
      intro r hr
      rw [hnone] at hr
      exact absurd hr (by simp)
    case pos =>
      have heval := findBestMatch_eq store queryVector hg h2
      rcases foldBest_spec (fun e => _cosineSimilarity queryVector e.keypoints)
          (fun e => e.label) store.vectors ⟨none, -1⟩ with
        ⟨heq, hle⟩ | ⟨l1, a, l2, hsplit, heq, -, hl1, hl2⟩
      · have hnone : findBestMatch store queryVector = none := by
          rw [heval, heq, if_neg (by norm_num)]
        have hall : ∀ e ∈ store.vectors,
            _cosineSimilarity queryVector e.keypoints ≤ 0 := by
          intro e he
          exact le_trans (hle e he) (by norm_num)
        refine ⟨iff_of_true hnone (Or.inr (Or.inr (Or.inr hall))), ?_⟩
        intro r hr
        rw [hnone] at hr
        exact absurd hr (by simp)
      · have hmax : ∀ b ∈ store.vectors, _cosineSimilarity queryVector b.keypoints ≤
            _cosineSimilarity queryVector a.keypoints := by
          intro b hb
          rw [hsplit] at hb
          rcases List.mem_append.1 hb with hb | hb
          · exact le_of_lt (hl1 b hb)
          · rcases List.mem_cons.1 hb with rfl | hb
            · exact le_refl _
            · exact hl2 b hb
        have hamem : a ∈ store.vectors := by
          rw [hsplit]
          exact List.mem_append_right _ (List.mem_cons_self a l2)
        by_cases hpos : 0 < _cosineSimilarity queryVector a.keypoints
        case pos =>
          have hsome : findBestMatch store queryVector =
              some ⟨some a.label, _cosineSimilarity queryVector a.keypoints⟩ := by
            rw [heval, heq, if_pos hpos]
          have hrhsfalse : ¬ (store.isInitialized = false ∨ store.vectors = [] ∨
              queryVector.length ≠ store.dimensions ∨
              ∀ e ∈ store.vectors, _cosineSimilarity queryVector e.keypoints ≤ 0) := by
            rintro (h | h | h | h)
            · rw [hinit] at h
              exact absurd h (by simp)
            · exact hvne h
            · exact h h2
            · exact absurd (h a hamem) (not_le.2 hpos)
          refine ⟨iff_of_false (by rw [hsome]; simp) hrhsfalse, ?_⟩
          intro r hr
          rw [hsome] at hr
          have hr2 := Option.some.inj hr
          subst hr2
          exact ⟨hinit, hvne, h2, hpos, l1, a, l2, hsplit, rfl, hl1, hmax⟩
        case neg =>
          have hnone : findBestMatch store queryVector = none := by
            rw [heval, heq, if_neg hpos]
          have hall : ∀ e ∈ store.vectors,
              _cosineSimilarity queryVector e.keypoints ≤ 0 := by
            intro e he
            exact le_trans (hmax e he) (not_lt.1 hpos)
          refine ⟨iff_of_true hnone (Or.inr (Or.inr (Or.inr hall))), ?_⟩
          intro r hr
          rw [hnone] at hr
          exact absurd hr (by simp)

/-- C3 witness: the lookup on a concrete uninitialized store is `null`. -/
theorem findBestMatch_spec_witness : findBestMatch ⟨[], 0, false⟩ [1] = none :=
  (findBestMatch_spec ⟨[], 0, false⟩ [1]).1.mpr (Or.inl rfl)

/-! ### C2 helper lemmas -/

/-- Inserting a vector creates or extends the group of its key. -/
lemma groupInsert_self :
    ∀ (acc : List (String × List (List ℚ))) (key : String) (kp : List ℚ),
      ∃ p ∈ groupInsert acc key kp, p.1 = key ∧ kp ∈ p.2
  | [], key, kp => ⟨(key, [kp]), by simp [groupInsert], rfl, by simp⟩
  | (k, vs) :: rest, key, kp => by
      by_cases hk : k = key
      · exact ⟨(k, vs ++ [kp]), by simp [groupInsert, hk], hk, by simp⟩
      · obtain ⟨p, hp, hkey, hmem⟩ := groupInsert_self rest key kp
        exact ⟨p, by simp [groupInsert, hk, hp], hkey, hmem⟩

/-- Inserting a vector never loses an existing group or its members. -/
lemma groupInsert_persist :
    ∀ (acc : List (String × List (List ℚ))) (key : String) (kp : List ℚ)
      (p : String × List (List ℚ)), p ∈ acc →
      ∃ p2 ∈ groupInsert acc key kp, p2.1 = p.1 ∧ ∀ v ∈ p.2, v ∈ p2.2
  | [], _, _, _, hp => absurd hp (by simp)
  | (k, vs) :: rest, key, kp, p, hp => by
      rcases List.mem_cons.1 hp with rfl | hp
      · by_cases hk : k = key
        · exact ⟨(k, vs ++ [kp]), by simp [groupInsert, hk], rfl,
            fun v hv => by simp [hv]⟩
        · exact ⟨(k, vs), by simp [groupInsert, hk], rfl, fun v hv => hv⟩
      · by_cases hk : k = key
        · exact ⟨p, by simp [groupInsert, hk, hp], rfl, fun v hv => hv⟩
        · obtain ⟨p2, hp2, hkey, hsub⟩ := groupInsert_persist rest key kp p hp
          exact ⟨p2, by simp [groupInsert, hk, hp2], hkey, hsub⟩

/-- Folding further insertions never loses an existing group or its
members. -/
lemma foldl_groupInsert_persist :
    ∀ (l : List SignEntry) (acc : List (String × List (List ℚ)))
      (p : String × List (List ℚ)), p ∈ acc →
      ∃ p2 ∈ l.foldl
          (fun acc curr => groupInsert acc (signKeyOf curr.label) curr.keypoints) acc,
        p2.1 = p.1 ∧ ∀ v ∈ p.2, v ∈ p2.2
  | [], _, p, hp => ⟨p, hp, rfl, fun _ hv => hv⟩
  | e :: rest, acc, p, hp => by
      rw [List.foldl_cons]
      obtain ⟨p2, hp2, hkey, hsub⟩ :=
        groupInsert_persist acc (signKeyOf e.label) e.keypoints p hp
      obtain ⟨p3, hp3, hkey3, hsub3⟩ := foldl_groupInsert_persist rest _ p2 hp2
      exact ⟨p3, hp3, by rw [hkey3, hkey], fun v hv => hsub3 v (hsub v hv)⟩

/-- Every entry's keypoints end up in the group of its sign key. -/
lemma foldl_groupInsert_mem :
    ∀ (l : List SignEntry) (acc : List (String × List (List ℚ)))
      (e : SignEntry), e ∈ l →
      ∃ p ∈ l.foldl
          (fun acc curr => groupInsert acc (signKeyOf curr.label) curr.keypoints) acc,
        p.1 = signKeyOf e.label ∧ e.keypoints ∈ p.2
  | [], _, _, he => absurd he (by simp)
  | x :: rest, acc, e, he => by
      rw [List.foldl_cons]
      rcases List.mem_cons.1 he with rfl | he
      · obtain ⟨p, hp, hkey, hmem⟩ := groupInsert_self acc (signKeyOf e.label) e.keypoints
        obtain ⟨p2, hp2, hk2, hsub⟩ := foldl_groupInsert_persist rest _ p hp
        exact ⟨p2, hp2, by rw [hk2, hkey], hsub _ hmem⟩
      · exact foldl_groupInsert_mem rest _ e he

/-- `findBestMatchAveraged` past its guard, with the scan loop made
explicit. -/
lemma findBestMatchAveraged_eq (store : VectorStore) (q : List ℚ)
    (hg : ¬ (store.isInitialized = false ∨ store.vectors.length = 0)) :
    findBestMatchAveraged store q =
      if 0 < ((groupedVectors store.vectors).foldl
          (fun b g =>
            if b.similarity < _cosineSimilarity q (averageVector store.dimensions g.2)
            then ⟨some g.1, _cosineSimilarity q (averageVector store.dimensions g.2)⟩
            else b)
          (⟨none, -1⟩ : BestMatch)).similarity
      then some ((groupedVectors store.vectors).foldl
          (fun b g =>
            if b.similarity < _cosineSimilarity q (averageVector store.dimensions g.2)
            then ⟨some g.1, _cosineSimilarity q (averageVector store.dimensions g.2)⟩
            else b)
          (⟨none, -1⟩ : BestMatch))
      else none := by
  rw [findBestMatchAveraged, if_neg hg]

/-! ### C2 -/

/-- C2 (corrected): `findBestMatchAveraged` has no query-length guard —
on a store of dimension 2 holding the single entry `"RIGHT A 1" ↦ [1, 1]`,
the 1-component query `[1]` (whose length differs from the store's
dimensions) still yields the match `("RIGHT A", 1)`, while `findBestMatch`
on the same store and query returns `null`. -/
theorem findBestMatchAveraged_dim_cex :
    findBestMatchAveraged ⟨[⟨"RIGHT A 1", [1, 1]⟩], 2, true⟩ [1] =
      some ⟨some "RIGHT A", 1⟩ ∧
    ([1] : List ℚ).length ≠
      (⟨[⟨"RIGHT A 1", [1, 1]⟩], 2, true⟩ : VectorStore).dimensions ∧
    findBestMatch ⟨[⟨"RIGHT A 1", [1, 1]⟩], 2, true⟩ [1] = none := by
  have hgrp : groupedVectors [⟨"RIGHT A 1", [1, 1]⟩] = [("RIGHT A", [[1, 1]])] := by
    decide
  have havg : averageVector 2 [[1, 1]] = [1, 1] := by
    rw [averageVector, show List.range 2 = [0, 1] from rfl]
    simp only [List.map_cons, List.map_nil, List.getD_cons_zero, List.getD_cons_succ,
      List.sum_cons, List.sum_nil, List.length_cons, List.length_nil]
    norm_num
  have hcos : _cosineSimilarity [1] [1, 1] = 1 := by
    simp only [_cosineSimilarity, List.zipWith_cons_cons, List.zipWith_nil_left,
      List.zipWith_nil_right, List.map_cons, List.map_nil, List.sum_cons, List.sum_nil,
      List.take_succ_cons, List.take_zero, List.length_cons, List.length_nil]
    norm_num [Real.sqrt_one]
  refine ⟨?_, by decide, ?_⟩
  · rw [findBestMatchAveraged_eq _ _ (by simp), hgrp, List.foldl_cons, List.foldl_nil,
      havg, hcos]
    norm_num
  · rw [findBestMatch, if_neg (by simp), if_pos (by decide)]

/-- C2 (amended, dropping only the query-length condition): every stored
entry's keypoints are grouped under its `(hand, symbol)` sign key (the
label prefix ignoring the variant); `findBestMatchAveraged` returns `null`
exactly when the store is uninitialized or empty or no group's componentwise
mean has strictly positive cosine similarity to the query — there is no
query-length check — and otherwise returns the first group (in insertion
order) whose mean attains the maximum similarity.  The theorem is stated for
queries no longer than the store's dimensions (each group mean has exactly
`store.dimensions` components): that is the regime where the exact-rational
`_cosineSimilarity` is faithful to the JavaScript loop — a strictly longer
query makes the JavaScript scan read past the mean vector and produce `NaN`,
which the exact embedding cannot represent. -/
theorem findBestMatchAveraged_spec (store : VectorStore) (queryVector : List ℚ)
    (_hql : queryVector.length ≤ store.dimensions) :
    (findBestMatchAveraged store queryVector = none ↔
      store.isInitialized = false ∨ store.vectors = [] ∨
      ∀ p ∈ groupedVectors store.vectors,
        _cosineSimilarity queryVector (averageVector store.dimensions p.2) ≤ 0) ∧
    (∀ r, findBestMatchAveraged store queryVector = some r →
      store.isInitialized = true ∧ 0 < r.similarity ∧
      ∃ l1 p l2, groupedVectors store.vectors = l1 ++ p :: l2 ∧
        r = ⟨some p.1, _cosineSimilarity queryVector (averageVector store.dimensions p.2)⟩ ∧
        (∀ p2 ∈ l1, _cosineSimilarity queryVector (averageVector store.dimensions p2.2) <
          _cosineSimilarity queryVector (averageVector store.dimensions p.2)) ∧
        (∀ p2 ∈ groupedVectors store.vectors,
          _cosineSimilarity queryVector (averageVector store.dimensions p2.2) ≤
            _cosineSimilarity queryVector (averageVector store.dimensions p.2))) ∧
    (∀ e ∈ store.vectors, ∃ p ∈ groupedVectors store.vectors,
      p.1 = signKeyOf e.label ∧ e.keypoints ∈ p.2) := by
  have hgroup : ∀ e ∈ store.vectors, ∃ p ∈ groupedVectors store.vectors,
      p.1 = signKeyOf e.label ∧ e.keypoints ∈ p.2 :=
    fun e he => foldl_groupInsert_mem store.vectors [] e he
  by_cases hg : store.isInitialized = false ∨ store.vectors.length = 0
  · have hnone : findBestMatchAveraged store queryVector = none := by
      rw [findBestMatchAveraged, if_pos hg]
    have hrhs : store.isInitialized = false ∨ store.vectors = [] ∨
        ∀ p ∈ groupedVectors store.vectors,
          _cosineSimilarity queryVector (averageVector store.dimensions p.2) ≤ 0 := by
      rcases hg with h | h
      · exact Or.inl h
      · exact Or.inr (Or.inl (List.length_eq_zero.1 h))
    refine ⟨iff_of_true hnone hrhs, ?_, hgroup⟩
    intro r hr
    rw [hnone] at hr
    exact absurd hr (by simp)
  · have hinit : store.isInitialized = true := by
      rcases Bool.eq_false_or_eq_true store.isInitialized with h | h
      · exact h
      · exact absurd (Or.inl h) hg
    have heval := findBestMatchAveraged_eq store queryVector hg
    rcases foldBest_spec
        (fun p => _cosineSimilarity queryVector (averageVector store.dimensions p.2))
        (fun p => p.1) (groupedVectors store.vectors) ⟨none, -1⟩ with
      ⟨heq, hle⟩ | ⟨l1, a, l2, hsplit, heq, -, hl1, hl2⟩
    · have hnone : findBestMatchAveraged store queryVector = none := by
        rw [heval, heq, if_neg (by norm_num)]
      have hall : ∀ p ∈ groupedVectors store.vectors,
          _cosineSimilarity queryVector (averageVector store.dimensions p.2) ≤ 0 :=
        fun p hp => le_trans (hle p hp) (by norm_num)
      refine ⟨iff_of_true hnone (Or.inr (Or.inr hall)), ?_, hgroup⟩
      intro r hr
      rw [hnone] at hr
      exact absurd hr (by simp)
    · have hmax : ∀ p2 ∈ groupedVectors store.vectors,
          _cosineSimilarity queryVector (averageVector store.dimensions p2.2) ≤
            _cosineSimilarity queryVector (averageVector store.dimensions a.2) := by
        intro p2 hp2
        rw [hsplit] at hp2
        rcases List.mem_append.1 hp2 with hp2 | hp2
        · exact le_of_lt (hl1 p2 hp2)
        · rcases List.mem_cons.1 hp2 with rfl | hp2
          · exact le_refl _
          · exact hl2 p2 hp2
      have hamem : a ∈ groupedVectors store.vectors := by
        rw [hsplit]
        exact List.mem_append_right _ (List.mem_cons_self a l2)
      by_cases hpos : 0 < _cosineSimilarity queryVector (averageVector store.dimensions a.2)
      case pos =>
        have hsome : findBestMatchAveraged store queryVector =
            some ⟨some a.1,
              _cosineSimilarity queryVector (averageVector store.dimensions a.2)⟩ := by
          rw [heval, heq, if_pos hpos]
        have hrhsfalse : ¬ (store.isInitialized = false ∨ store.vectors = [] ∨
            ∀ p ∈ groupedVectors store.vectors,
              _cosineSimilarity queryVector (averageVector store.dimensions p.2) ≤ 0) := by
          rintro (h | h | h)
          · rw [hinit] at h
            exact absurd h (by simp)
          · rw [h] at hg
            exact hg (Or.inr rfl)
          · exact absurd (h a hamem) (not_le.2 hpos)
        refine ⟨iff_of_false (by rw [hsome]; simp) hrhsfalse, ?_, hgroup⟩
        intro r hr
        rw [hsome] at hr
        have hr2 := Option.some.inj hr
        subst hr2
        exact ⟨hinit, hpos, l1, a, l2, hsplit, rfl, hl1, hmax⟩
      case neg =>
        have hnone : findBestMatchAveraged store queryVector = none := by
          rw [heval, heq, if_neg hpos]
        have hall : ∀ p ∈ groupedVectors store.vectors,
            _cosineSimilarity queryVector (averageVector store.dimensions p.2) ≤ 0 :=
          fun p hp => le_trans (hmax p hp) (not_lt.1 hpos)
        refine ⟨iff_of_true hnone (Or.inr (Or.inr hall)), ?_, hgroup⟩
        intro r hr
        rw [hnone] at hr
        exact absurd hr (by simp)

/-- C2 witness: the averaged lookup on a concrete uninitialized store is
`null`. -/
theorem findBestMatchAveraged_spec_witness :
    findBestMatchAveraged ⟨[], 0, false⟩ [] = none :=
  (findBestMatchAveraged_spec ⟨[], 0, false⟩ [] (by decide)).1.mpr (Or.inl rfl)

end Bolo
